import Mathlib

/-!
Verification development for the MxChess engine (bitboard move generator,
legality oracle and negamax search).  The Rust sources are shallowly
embedded: `u64` bitboards become `Nat` values kept below `2^64` (every left
shift is masked), `u8` squares become `Nat`, mutation becomes explicit state
passing, and code paths that panic in the source (`unreachable!`, the
wildcard castle arm of `perform_move`) are modelled with `Option`, `none`
standing for the panic.
-/

/-- Mask of a 64-bit word, `u64::MAX`. -/
def M64 : Nat := 0xffffffffffffffff

/-- Bitboard of file a, `0x0101010101010101` in the source. -/
def fileA : Nat := 0x0101010101010101

/-- Bitboard of file h, `0x8080808080808080` in the source. -/
def fileH : Nat := 0x8080808080808080

/-- Left shift of a `u64`, truncated to 64 bits like Rust `<<`. -/
def shl (x n : Nat) : Nat := (x <<< n) &&& M64

/-- Bitwise complement within 64 bits, Rust `!x` on `u64` (for `x < 2^64`). -/
def compl64 (x : Nat) : Nat := x ^^^ M64

/-- The lazy set-bit iterator of `bit_iter.rs`, materialised as the list of
single-bit masks it yields: each step returns `prev ^ (prev & (prev - 1))`
and continues with `prev & (prev - 1)`.  The fuel 64 covers every `u64`. -/
def bitIterGo : Nat → Nat → List Nat
  | 0, _ => []
  | fuel + 1, x =>
    if x = 0 then []
    else
      let rest := x &&& (x - 1)
      (x ^^^ rest) :: bitIterGo fuel rest
termination_by structural fuel _ => fuel

/-- List of single-bit masks of `x`, lowest bit first (`BitIterator`). -/
def bitIter (x : Nat) : List Nat := bitIterGo 64 x

/-- Fuel-driven helper for `trailing_zeros`. -/
def tzGo : Nat → Nat → Nat
  | 0, _ => 64
  | fuel + 1, x =>
    if x % 2 = 1 then 0
    else if x = 0 then 64
    else tzGo fuel (x / 2) + 1
termination_by structural fuel _ => fuel

/-- Rust `u64::trailing_zeros` (64 on zero). -/
def trailingZeros (x : Nat) : Nat := tzGo 64 x

/-- Fuel-driven helper for `count_ones`. -/
def popGo : Nat → Nat → Nat
  | 0, _ => 0
  | fuel + 1, x => if x = 0 then 0 else x % 2 + popGo fuel (x / 2)
termination_by structural fuel _ => fuel

/-- Rust `u64::count_ones`, population count. -/
def countOnes (x : Nat) : Nat := popGo 64 x

/-- Side colour, `Color` in `board.rs`. -/
inductive Color where
  | white
  | black
deriving DecidableEq, Repr

/-- Opposite colour, `Color::inv`. -/
def Color.inv : Color → Color
  | .white => .black
  | .black => .white

/-- Semantic move tag, `MoveType` in `board.rs`. -/
inductive MoveType where
  | king
  | queen
  | rook
  | bishop
  | knight
  | pawn
  | pawnLeap
  | pawnEnPassant
  | pawnQueenPromotion
  | pawnRookPromotion
  | pawnBishopPromotion
  | pawnKnightPromotion
  | castle
deriving DecidableEq, Repr

/-- Piece kind, `PieceType` in `board.rs` (numeric tags 0..5). -/
inductive PieceType where
  | king
  | queen
  | rook
  | bishop
  | knight
  | pawn
deriving DecidableEq, Repr

/-- Numeric tag of a `PieceType`, its `repr(u8)` value. -/
def PieceType.tag : PieceType → Nat
  | .king => 0
  | .queen => 1
  | .rook => 2
  | .bishop => 3
  | .knight => 4
  | .pawn => 5

/-- Conversion `u8 -> PieceType`; the source panics outside `0..6`, here
`none`. -/
def PieceType.ofNat? : Nat → Option PieceType
  | 0 => some .king
  | 1 => some .queen
  | 2 => some .rook
  | 3 => some .bishop
  | 4 => some .knight
  | 5 => some .pawn
  | _ => none

/-- Coloured piece, `Piece` in `board.rs`. -/
structure Piece where
  color : Color
  ty : PieceType
deriving DecidableEq, Repr

/-- Per-colour bitboard set, `Pieces` in `board.rs`. -/
structure Pieces where
  all : Nat
  king : Nat
  queens : Nat
  rooks : Nat
  bishops : Nat
  knights : Nat
  pawns : Nat
deriving DecidableEq, Repr

/-- A move: from square, to square, semantic tag (`Move` in `board.rs`;
`from` is a Lean keyword, hence `fromSq`/`toSq`). -/
structure Move where
  fromSq : Nat
  toSq : Nat
  ty : MoveType
deriving DecidableEq, Repr

/-- Castling-right flag `WHITE_KINGS_CASTLE`. -/
def WHITE_KINGS_CASTLE : Nat := 0b0001

/-- Castling-right flag `WHITE_QUEENS_CASTLE`. -/
def WHITE_QUEENS_CASTLE : Nat := 0b0010

/-- Castling-right flag `BLACK_KINGS_CASTLE`. -/
def BLACK_KINGS_CASTLE : Nat := 0b0100

/-- Castling-right flag `BLACK_QUEENS_CASTLE`. -/
def BLACK_QUEENS_CASTLE : Nat := 0b1000

/-- Initial flags value `ChessFlags::INIT`, all four rights. -/
def FLAGS_INIT : Nat :=
  WHITE_KINGS_CASTLE ||| WHITE_QUEENS_CASTLE ||| BLACK_KINGS_CASTLE ||| BLACK_QUEENS_CASTLE

/-- Bitflags `contains`: all bits of `f` are present. -/
def flagsContains (flags f : Nat) : Bool := flags &&& f == f

/-- Bitflags `remove`: clear the bits of `f` (u8-wide complement). -/
def flagsRemove (flags f : Nat) : Nat := flags &&& (f ^^^ 0xff)

/-- Full position, `Board` in `board.rs`. -/
structure Board where
  white_pieces : Pieces
  black_pieces : Pieces
  prev_move : Move
  flags : Nat
deriving DecidableEq, Repr

/-- The standard initial position, `Board::new`. -/
def initialBoard : Board where
  white_pieces :=
    { pawns := 0xff00
      rooks := 0x0081
      knights := 0x0042
      bishops := 0x0024
      queens := 0x0008
      king := 0x0010
      all := 0xffff }
  black_pieces :=
    { pawns := 0x00ff000000000000
      rooks := 0x8100000000000000
      knights := 0x4200000000000000
      bishops := 0x2400000000000000
      queens := 0x0800000000000000
      king := 0x1000000000000000
      all := 0xffff000000000000 }
  prev_move := { fromSq := 0o74, toSq := 0o74, ty := .king }
  flags := FLAGS_INIT

/-- Select a colour's piece set, `Board::get_pieces`. -/
def getPieces (b : Board) : Color → Pieces
  | .white => b.white_pieces
  | .black => b.black_pieces

/-- Numeric piece tag at a single-bit position, the masked-or computation of
`Pieces::get_at` (`King as u8 & -(cond) | ...`; the king term is zero). -/
def Pieces.tagAt (p : Pieces) (bitPos : Nat) : Nat :=
  (if p.king &&& bitPos ≠ 0 then PieceType.king.tag else 0)
    ||| (if p.queens &&& bitPos ≠ 0 then PieceType.queen.tag else 0)
    ||| (if p.rooks &&& bitPos ≠ 0 then PieceType.rook.tag else 0)
    ||| (if p.bishops &&& bitPos ≠ 0 then PieceType.bishop.tag else 0)
    ||| (if p.knights &&& bitPos ≠ 0 then PieceType.knight.tag else 0)
    ||| (if p.pawns &&& bitPos ≠ 0 then PieceType.pawn.tag else 0)

/-- Piece kind at a single-bit position, `Pieces::get_at`.  The source
panics when the tag is outside `0..6` (overlapping kind masks); here that
ill-formed case yields `none` as well. -/
def Pieces.getAt? (p : Pieces) (bitPos : Nat) : Option PieceType :=
  if p.all &&& bitPos ≠ 0 then PieceType.ofNat? (p.tagAt bitPos) else none

/-- Piece (with colour) at a single-bit position, `Board::get_at`. -/
def Board.getAt? (b : Board) (bitPos : Nat) : Option Piece :=
  match b.white_pieces.getAt? bitPos with
  | some ty => some { color := .white, ty }
  | none =>
    match b.black_pieces.getAt? bitPos with
    | some ty => some { color := .black, ty }
    | none => none

/-- Clear a bit from every mask, `Pieces::clear_unchecked`. -/
def Pieces.clearUnchecked (p : Pieces) (bitPos : Nat) : Pieces where
  all := p.all &&& compl64 bitPos
  king := p.king &&& compl64 bitPos
  queens := p.queens &&& compl64 bitPos
  rooks := p.rooks &&& compl64 bitPos
  bishops := p.bishops &&& compl64 bitPos
  knights := p.knights &&& compl64 bitPos
  pawns := p.pawns &&& compl64 bitPos

/-- Clear a bit if occupied, `Pieces::clear`; returns the updated set and
whether anything was cleared. -/
def Pieces.clear (p : Pieces) (bitPos : Nat) : Pieces × Bool :=
  if p.all &&& bitPos ≠ 0 then (p.clearUnchecked bitPos, true) else (p, false)

/-- The iterative ray-flooding loop of `Board::check_attack`: eight
directional ray sets are accumulated and stepped until empty, with wrap and
blocker masks.  The source loop runs until all rays die (at most eight
steps); fuel 64 is ample. -/
def floodGo : Nat → Nat → Nat → Nat → Nat → Nat → Nat → Nat → Nat → Nat → Nat → Nat
  | 0, _, _, _, _, _, _, _, _, _, acc => acc
  | fuel + 1, all, r, l, u, d, ru, lu, rd, ld, acc =>
    let moveAll := r ||| l ||| u ||| d ||| ru ||| lu ||| rd ||| ld
    let acc := acc ||| moveAll
    if moveAll = 0 then acc
    else
      floodGo fuel all
        (shl (r &&& compl64 all) 1 &&& compl64 fileA)
        ((l &&& compl64 all) >>> 1 &&& compl64 fileH)
        (shl (u &&& compl64 all) 0o10)
        ((d &&& compl64 all) >>> 0o10)
        (shl (ru &&& compl64 all) 0o11 &&& compl64 fileA)
        (shl (lu &&& compl64 all) 7 &&& compl64 fileH)
        ((rd &&& compl64 all) >>> 7 &&& compl64 fileA)
        ((ld &&& compl64 all) >>> 0o11 &&& compl64 fileH)
        acc
termination_by structural fuel _ _ _ _ _ _ _ _ _ _ => fuel

/-- Attack set of `color`, `Board::check_attack`: pawn diagonals, king
8-neighbourhood, slider ray flooding (blockers are both occupancies minus
the opposing king), knight jumps. -/
def checkAttack (b : Board) (color : Color) : Nat :=
  let pieces := getPieces b color
  let pawnAttack : Nat :=
    match color with
    | .white => shl pieces.pawns 0o11 &&& compl64 fileA ||| shl pieces.pawns 7 &&& compl64 fileH
    | .black => pieces.pawns >>> 0o11 &&& compl64 fileH ||| pieces.pawns >>> 7 &&& compl64 fileA
  let kingAttack : Nat :=
    (shl pieces.king 1 ||| shl pieces.king 0o11 ||| pieces.king >>> 7) &&& compl64 fileA
      ||| (pieces.king >>> 1 ||| pieces.king >>> 0o11 ||| shl pieces.king 7) &&& compl64 fileH
      ||| shl pieces.king 0o10
      ||| pieces.king >>> 0o10
  let all := (b.white_pieces.all ||| b.black_pieces.all) &&& compl64 (getPieces b color.inv).king
  let slideAttack :=
    floodGo 64 all
      (shl (pieces.queens ||| pieces.rooks) 1 &&& compl64 fileA)
      ((pieces.queens ||| pieces.rooks) >>> 1 &&& compl64 fileH)
      (shl (pieces.queens ||| pieces.rooks) 0o10)
      ((pieces.queens ||| pieces.rooks) >>> 0o10)
      (shl (pieces.queens ||| pieces.bishops) 0o11 &&& compl64 fileA)
      (shl (pieces.queens ||| pieces.bishops) 7 &&& compl64 fileH)
      ((pieces.queens ||| pieces.bishops) >>> 7 &&& compl64 fileA)
      ((pieces.queens ||| pieces.bishops) >>> 0o11 &&& compl64 fileH)
      0
  let knightAttack : Nat :=
    (shl pieces.knights 0o21 ||| pieces.knights >>> 0o17) &&& compl64 fileA
      ||| (shl pieces.knights 0o17 ||| pieces.knights >>> 0o21) &&& compl64 fileH
      ||| (shl pieces.knights 0o12 ||| pieces.knights >>> 6) &&& compl64 0x0303030303030303
      ||| (shl pieces.knights 6 ||| pieces.knights >>> 0o12) &&& compl64 0xc0c0c0c0c0c0c0c0
  pawnAttack ||| kingAttack ||| slideAttack ||| knightAttack

/-- Walk of one pin-detection ray in `Board::find_pins`: step from the king,
remember the first friendly piece as the pin candidate, report it when an
enemy pinner of the right flavour is hit first, stop on a second friendly
piece, the board edge, or any other enemy piece. -/
def pinRayGo (stepF : Nat → Nat) (piecesAll otherAll pinners : Nat) :
    Nat → Nat → Nat → Nat
  | 0, _, _ => 0
  | fuel + 1, pos, pin =>
    let p := stepF pos
    if p &&& piecesAll ≠ 0 ∧ pin ≠ 0 then 0
    else
      let pin := if p &&& piecesAll ≠ 0 then p else pin
      if pinners &&& p ≠ 0 then pin
      else if p = 0 ∨ p &&& otherAll ≠ 0 then 0
      else pinRayGo stepF piecesAll otherAll pinners fuel p pin
termination_by structural fuel _ _ => fuel

/-- Pinned-piece mask of `color`, `Board::find_pins`: four orthogonal rays
against enemy rooks/queens and four diagonal rays against enemy
bishops/queens. -/
def findPins (b : Board) (color : Color) : Nat :=
  let king := (getPieces b color).king
  let piecesAll := (getPieces b color).all
  let otherAll := (getPieces b color.inv).all
  let otherQueens := (getPieces b color.inv).queens
  let hv := (getPieces b color.inv).rooks ||| otherQueens
  let diag := (getPieces b color.inv).bishops ||| otherQueens
  pinRayGo (fun p => shl p 1 &&& compl64 fileA) piecesAll otherAll hv 64 king 0
    ||| pinRayGo (fun p => p >>> 1 &&& compl64 fileH) piecesAll otherAll hv 64 king 0
    ||| pinRayGo (fun p => shl p 0o10) piecesAll otherAll hv 64 king 0
    ||| pinRayGo (fun p => p >>> 0o10) piecesAll otherAll hv 64 king 0
    ||| pinRayGo (fun p => shl p 0o11 &&& compl64 fileA) piecesAll otherAll diag 64 king 0
    ||| pinRayGo (fun p => shl p 7 &&& compl64 fileH) piecesAll otherAll diag 64 king 0
    ||| pinRayGo (fun p => p >>> 7 &&& compl64 fileA) piecesAll otherAll diag 64 king 0
    ||| pinRayGo (fun p => p >>> 0o11 &&& compl64 fileH) piecesAll otherAll diag 64 king 0

/-- Move one bit of a single kind mask and capture at the destination: the
common pattern of the simple arms of `Board::perform_move`. -/
def movePieceBit (m : Nat) (fromSq toSq : Nat) : Nat :=
  m &&& compl64 (shl 1 fromSq) ||| shl 1 toSq

/-- Application of a move, `Board::perform_move`.  Mover colour is read from
which `all` holds the from-bit; the from/to update of `all` happens before
the per-kind dispatch exactly as in the source.  `none` models the panic of
the wildcard castle arm (`to` outside c1/g1/c8/g8). -/
def performMove? (b : Board) (mv : Move) : Option Board :=
  let b := { b with prev_move := mv }
  let isWhite := shl 1 mv.fromSq &&& b.white_pieces.all ≠ 0
  let color : Color := if isWhite then .white else .black
  let b :=
    if isWhite then
      { b with white_pieces := { b.white_pieces with
          all := b.white_pieces.all &&& compl64 (shl 1 mv.fromSq) ||| shl 1 mv.toSq } }
    else
      { b with black_pieces := { b.black_pieces with
          all := b.black_pieces.all &&& compl64 (shl 1 mv.fromSq) ||| shl 1 mv.toSq } }
  let afterKind : Option Board :=
    match mv.ty with
    | .king =>
      match color with
      | .white =>
        some { b with
          white_pieces := { b.white_pieces with king := shl 1 mv.toSq }
          black_pieces := (b.black_pieces.clear (shl 1 mv.toSq)).1 }
      | .black =>
        some { b with
          black_pieces := { b.black_pieces with king := shl 1 mv.toSq }
          white_pieces := (b.white_pieces.clear (shl 1 mv.toSq)).1 }
    | .queen =>
      match color with
      | .white =>
        some { b with
          white_pieces := { b.white_pieces with
            queens := movePieceBit b.white_pieces.queens mv.fromSq mv.toSq }
          black_pieces := (b.black_pieces.clear (shl 1 mv.toSq)).1 }
      | .black =>
        some { b with
          black_pieces := { b.black_pieces with
            queens := movePieceBit b.black_pieces.queens mv.fromSq mv.toSq }
          white_pieces := (b.white_pieces.clear (shl 1 mv.toSq)).1 }
    | .rook =>
      match color with
      | .white =>
        some { b with
          white_pieces := { b.white_pieces with
            rooks := movePieceBit b.white_pieces.rooks mv.fromSq mv.toSq }
          black_pieces := (b.black_pieces.clear (shl 1 mv.toSq)).1 }
      | .black =>
        some { b with
          black_pieces := { b.black_pieces with
            rooks := movePieceBit b.black_pieces.rooks mv.fromSq mv.toSq }
          white_pieces := (b.white_pieces.clear (shl 1 mv.toSq)).1 }
    | .bishop =>
      match color with
      | .white =>
        some { b with
          white_pieces := { b.white_pieces with
            bishops := movePieceBit b.white_pieces.bishops mv.fromSq mv.toSq }
          black_pieces := (b.black_pieces.clear (shl 1 mv.toSq)).1 }
      | .black =>
        some { b with
          black_pieces := { b.black_pieces with
            bishops := movePieceBit b.black_pieces.bishops mv.fromSq mv.toSq }
          white_pieces := (b.white_pieces.clear (shl 1 mv.toSq)).1 }
    | .knight =>
      match color with
      | .white =>
        some { b with
          white_pieces := { b.white_pieces with
            knights := movePieceBit b.white_pieces.knights mv.fromSq mv.toSq }
          black_pieces := (b.black_pieces.clear (shl 1 mv.toSq)).1 }
      | .black =>
        some { b with
          black_pieces := { b.black_pieces with
            knights := movePieceBit b.black_pieces.knights mv.fromSq mv.toSq }
          white_pieces := (b.white_pieces.clear (shl 1 mv.toSq)).1 }
    | .pawn =>
      match color with
      | .white =>
        some { b with
          white_pieces := { b.white_pieces with
            pawns := movePieceBit b.white_pieces.pawns mv.fromSq mv.toSq }
          black_pieces := (b.black_pieces.clear (shl 1 mv.toSq)).1 }
      | .black =>
        some { b with
          black_pieces := { b.black_pieces with
            pawns := movePieceBit b.black_pieces.pawns mv.fromSq mv.toSq }
          white_pieces := (b.white_pieces.clear (shl 1 mv.toSq)).1 }
    | .pawnLeap =>
      match color with
      | .white =>
        some { b with white_pieces := { b.white_pieces with
          pawns := movePieceBit b.white_pieces.pawns mv.fromSq mv.toSq } }
      | .black =>
        some { b with black_pieces := { b.black_pieces with
          pawns := movePieceBit b.black_pieces.pawns mv.fromSq mv.toSq } }
    | .pawnEnPassant =>
      match color with
      | .white =>
        some { b with
          black_pieces := { b.black_pieces with
            all := b.black_pieces.all &&& compl64 (shl 1 (mv.toSq - 0o10))
            pawns := b.black_pieces.pawns &&& compl64 (shl 1 (mv.toSq - 0o10)) }
          white_pieces := { b.white_pieces with
            pawns := movePieceBit b.white_pieces.pawns mv.fromSq mv.toSq } }
      | .black =>
        some { b with
          white_pieces := { b.white_pieces with
            all := b.white_pieces.all &&& compl64 (shl 1 (mv.toSq + 0o10))
            pawns := b.white_pieces.pawns &&& compl64 (shl 1 (mv.toSq + 0o10)) }
          black_pieces := { b.black_pieces with
            pawns := movePieceBit b.black_pieces.pawns mv.fromSq mv.toSq } }
    | .pawnQueenPromotion =>
      match color with
      | .white =>
        some { b with
          white_pieces := { b.white_pieces with
            pawns := b.white_pieces.pawns &&& compl64 (shl 1 mv.fromSq)
            queens := b.white_pieces.queens ||| shl 1 mv.toSq }
          black_pieces := (b.black_pieces.clear (shl 1 mv.toSq)).1 }
      | .black =>
        some { b with
          black_pieces := { b.black_pieces with
            pawns := b.black_pieces.pawns &&& compl64 (shl 1 mv.fromSq)
            queens := b.black_pieces.queens ||| shl 1 mv.toSq }
          white_pieces := (b.white_pieces.clear (shl 1 mv.toSq)).1 }
    | .pawnRookPromotion =>
      match color with
      | .white =>
        some { b with
          white_pieces := { b.white_pieces with
            pawns := b.white_pieces.pawns &&& compl64 (shl 1 mv.fromSq)
            rooks := b.white_pieces.rooks ||| shl 1 mv.toSq }
          black_pieces := (b.black_pieces.clear (shl 1 mv.toSq)).1 }
      | .black =>
        some { b with
          black_pieces := { b.black_pieces with
            pawns := b.black_pieces.pawns &&& compl64 (shl 1 mv.fromSq)
            rooks := b.black_pieces.rooks ||| shl 1 mv.toSq }
          white_pieces := (b.white_pieces.clear (shl 1 mv.toSq)).1 }
    | .pawnBishopPromotion =>
      match color with
      | .white =>
        some { b with
          white_pieces := { b.white_pieces with
            pawns := b.white_pieces.pawns &&& compl64 (shl 1 mv.fromSq)
            bishops := b.white_pieces.bishops ||| shl 1 mv.toSq }
          black_pieces := (b.black_pieces.clear (shl 1 mv.toSq)).1 }
      | .black =>
        some { b with
          black_pieces := { b.black_pieces with
            pawns := b.black_pieces.pawns &&& compl64 (shl 1 mv.fromSq)
            bishops := b.black_pieces.bishops ||| shl 1 mv.toSq }
          white_pieces := (b.white_pieces.clear (shl 1 mv.toSq)).1 }
    | .pawnKnightPromotion =>
      match color with
      | .white =>
        some { b with
          white_pieces := { b.white_pieces with
            pawns := b.white_pieces.pawns &&& compl64 (shl 1 mv.fromSq)
            knights := b.white_pieces.knights ||| shl 1 mv.toSq }
          black_pieces := (b.black_pieces.clear (shl 1 mv.toSq)).1 }
      | .black =>
        some { b with
          black_pieces := { b.black_pieces with
            pawns := b.black_pieces.pawns &&& compl64 (shl 1 mv.fromSq)
            knights := b.black_pieces.knights ||| shl 1 mv.toSq }
          white_pieces := (b.white_pieces.clear (shl 1 mv.toSq)).1 }
    | .castle =>
      match mv.toSq with
      | 2 =>
        some { b with white_pieces := { b.white_pieces with
          king := 4
          all := (b.white_pieces.all &&& compl64 1) ||| 8
          rooks := (b.white_pieces.rooks &&& compl64 1) ||| 8 } }
      | 6 =>
        some { b with white_pieces := { b.white_pieces with
          king := 0x40
          all := (b.white_pieces.all &&& compl64 0x80) ||| 0x20
          rooks := (b.white_pieces.rooks &&& compl64 0x80) ||| 0x20 } }
      | 0o72 =>
        some { b with black_pieces := { b.black_pieces with
          king := shl 1 0o72
          all := (b.black_pieces.all &&& compl64 (shl 1 0o70)) ||| shl 1 0o73
          rooks := (b.black_pieces.rooks &&& compl64 (shl 1 0o70)) ||| shl 1 0o73 } }
      | 0o76 =>
        some { b with black_pieces := { b.black_pieces with
          king := shl 1 0o76
          all := (b.black_pieces.all &&& compl64 (shl 1 0o77)) ||| shl 1 0o75
          rooks := (b.black_pieces.rooks &&& compl64 (shl 1 0o77)) ||| shl 1 0o75 } }
      | _ => none
  match afterKind with
  | none => none
  | some b =>
    let f := b.flags
    let f := flagsRemove f
      (if b.white_pieces.king = 0x10 then 0
       else WHITE_KINGS_CASTLE ||| WHITE_QUEENS_CASTLE)
    let f := flagsRemove f
      (if b.black_pieces.king = shl 0x10 0o70 then 0
       else WHITE_KINGS_CASTLE ||| WHITE_QUEENS_CASTLE)
    let f := flagsRemove f
      (if b.white_pieces.rooks &&& 1 ≠ 0 then 0 else WHITE_QUEENS_CASTLE)
    let f := flagsRemove f
      (if b.white_pieces.rooks &&& 0x80 ≠ 0 then 0 else WHITE_KINGS_CASTLE)
    let f := flagsRemove f
      (if b.white_pieces.rooks &&& shl 1 0o70 ≠ 0 then 0 else BLACK_QUEENS_CASTLE)
    let f := flagsRemove f
      (if b.white_pieces.rooks &&& shl 1 0o77 ≠ 0 then 0 else BLACK_KINGS_CASTLE)
    some { b with flags := f }

/-- Castle candidates of `Board::moves`.  White gates on the right, the
attack mask of the king path and emptiness between king and rook; the black
arms of the source check only the flag and the attack mask and reuse the
white squares `from 4 / to 6 or 2`. -/
def castleCands (b : Board) (c : Color) : List (Move × Bool) :=
  let all := b.white_pieces.all ||| b.black_pieces.all
  let otherAttack := checkAttack b c.inv
  match c with
  | .white =>
    (if flagsContains b.flags WHITE_KINGS_CASTLE
        && otherAttack &&& 0x70 == 0 && all &&& 0x60 == 0
     then [({ fromSq := 4, toSq := 6, ty := .castle }, true)] else [])
    ++ (if flagsContains b.flags WHITE_QUEENS_CASTLE
          && otherAttack &&& 0x1c == 0 && all &&& 0xe == 0
        then [({ fromSq := 4, toSq := 2, ty := .castle }, true)] else [])
  | .black =>
    (if flagsContains b.flags BLACK_KINGS_CASTLE
        && otherAttack &&& shl 0x70 0o70 == 0
     then [({ fromSq := 4, toSq := 6, ty := .castle }, true)] else [])
    ++ (if flagsContains b.flags BLACK_QUEENS_CASTLE
          && otherAttack &&& shl 0x1c 0o70 == 0
        then [({ fromSq := 4, toSq := 2, ty := .castle }, true)] else [])

/-- En-passant candidates of `Board::moves` (also the en-passant block of
`Board::capture_moves`): only after a `PawnLeap`, testing the own pawn one
file right (`to + 1`, masked against file a) and one file left (`to - 1`,
masked against file h) of the leap destination. -/
def epCands (b : Board) (c : Color) : List (Move × Bool) :=
  let pawns := (getPieces b c).pawns
  let t := b.prev_move.toSq
  if b.prev_move.ty == MoveType.pawnLeap then
    match c with
    | .white =>
      (if shl 1 (t + 1) &&& pawns &&& compl64 fileA ≠ 0
       then [({ fromSq := t + 1, toSq := t + 0o10, ty := .pawnEnPassant }, false)] else [])
      ++ (if shl 1 (t - 1) &&& pawns &&& compl64 fileH ≠ 0
          then [({ fromSq := t - 1, toSq := t + 0o10, ty := .pawnEnPassant }, false)] else [])
    | .black =>
      (if shl 1 (t + 1) &&& pawns &&& compl64 fileA ≠ 0
       then [({ fromSq := t + 1, toSq := t - 0o10, ty := .pawnEnPassant }, false)] else [])
      ++ (if shl 1 (t - 1) &&& pawns &&& compl64 fileH ≠ 0
          then [({ fromSq := t - 1, toSq := t - 0o10, ty := .pawnEnPassant }, false)] else [])
  else []

/-- Pawn push, leap and capture candidates of `Board::moves`, in source
order: single pushes, double pushes, captures toward the higher file,
captures toward the lower file; promotion tag on the far rank. -/
def pawnCands (b : Board) (c : Color) : List (Move × Bool) :=
  let pieces := getPieces b c
  let all := b.white_pieces.all ||| b.black_pieces.all
  let otherAll := (getPieces b c.inv).all
  match c with
  | .white =>
    let pawnFwd := shl pieces.pawns 0o10 &&& compl64 all
    (bitIter pawnFwd).map (fun bit =>
      ({ fromSq := trailingZeros bit - 0o10, toSq := trailingZeros bit
         ty := if bit &&& shl 0xff 0o70 = 0 then .pawn else .pawnQueenPromotion }, false))
    ++ (bitIter (shl pawnFwd 0o10 &&& compl64 all &&& 0xff000000)).map (fun bit =>
      ({ fromSq := trailingZeros bit - 0o20, toSq := trailingZeros bit, ty := .pawnLeap }, false))
    ++ (bitIter (shl pieces.pawns 0o11 &&& compl64 fileA &&& otherAll)).map (fun bit =>
      ({ fromSq := trailingZeros bit - 0o11, toSq := trailingZeros bit
         ty := if bit &&& shl 0xff 0o70 = 0 then .pawn else .pawnQueenPromotion }, false))
    ++ (bitIter (shl pieces.pawns 7 &&& compl64 fileH &&& otherAll)).map (fun bit =>
      ({ fromSq := trailingZeros bit - 7, toSq := trailingZeros bit
         ty := if bit &&& shl 0xff 0o70 = 0 then .pawn else .pawnQueenPromotion }, false))
  | .black =>
    let pawnFwd := pieces.pawns >>> 0o10 &&& compl64 all
    (bitIter pawnFwd).map (fun bit =>
      ({ fromSq := trailingZeros bit + 0o10, toSq := trailingZeros bit
         ty := if bit &&& 0xff = 0 then .pawn else .pawnQueenPromotion }, false))
    ++ (bitIter (pawnFwd >>> 0o10 &&& compl64 all &&& 0xff00000000)).map (fun bit =>
      ({ fromSq := trailingZeros bit + 0o20, toSq := trailingZeros bit, ty := .pawnLeap }, false))
    ++ (bitIter (pieces.pawns >>> 0o11 &&& compl64 fileH &&& otherAll)).map (fun bit =>
      ({ fromSq := trailingZeros bit + 0o11, toSq := trailingZeros bit
         ty := if bit &&& 0xff = 0 then .pawn else .pawnQueenPromotion }, false))
    ++ (bitIter (pieces.pawns >>> 7 &&& compl64 fileA &&& otherAll)).map (fun bit =>
      ({ fromSq := trailingZeros bit + 7, toSq := trailingZeros bit
         ty := if bit &&& 0xff = 0 then .pawn else .pawnQueenPromotion }, false))

/-- King-step candidates of `Board::moves`: the 8-neighbourhood minus own
pieces and minus attacked squares, pushed without the safety re-check. -/
def kingCands (b : Board) (c : Color) : List (Move × Bool) :=
  let pieces := getPieces b c
  let otherAttack := checkAttack b c.inv
  let kingMoves :=
    ((shl pieces.king 1 ||| shl pieces.king 0o11 ||| pieces.king >>> 7) &&& compl64 fileA
      ||| (pieces.king >>> 1 ||| pieces.king >>> 0o11 ||| shl pieces.king 7) &&& compl64 fileH
      ||| shl pieces.king 0o10
      ||| pieces.king >>> 0o10)
      &&& compl64 pieces.all &&& compl64 otherAttack
  (bitIter kingMoves).map (fun bit =>
    ({ fromSq := trailingZeros pieces.king, toSq := trailingZeros bit, ty := .king }, true))

/-- Slider generation loop of `Board::moves` (`for i in 1..8`): step the
eight ray sets, stop when all die, emit a move for every newly reached
square; the origin is recovered by walking `i` steps back, and the kind is
queen when the origin bit lies in the queen set. -/
def sliderGo (piecesAll otherAll queens : Nat) :
    Nat → Nat → Nat → Nat → Nat → Nat → Nat → Nat → Nat → Nat → List (Move × Bool)
  | 0, _, _, _, _, _, _, _, _, _ => []
  | fuel + 1, i, r, l, u, d, ru, lu, rd, ld =>
    let r := shl (r &&& compl64 otherAll) 1 &&& compl64 fileA &&& compl64 piecesAll
    let l := (l &&& compl64 otherAll) >>> 1 &&& compl64 fileH &&& compl64 piecesAll
    let u := shl (u &&& compl64 otherAll) 0o10 &&& compl64 piecesAll
    let d := (d &&& compl64 otherAll) >>> 0o10 &&& compl64 piecesAll
    let ru := shl (ru &&& compl64 otherAll) 0o11 &&& compl64 fileA &&& compl64 piecesAll
    let lu := shl (lu &&& compl64 otherAll) 7 &&& compl64 fileH &&& compl64 piecesAll
    let rd := (rd &&& compl64 otherAll) >>> 7 &&& compl64 fileA &&& compl64 piecesAll
    let ld := (ld &&& compl64 otherAll) >>> 0o11 &&& compl64 fileH &&& compl64 piecesAll
    if r ||| l ||| u ||| d ||| ru ||| lu ||| rd ||| ld = 0 then []
    else
      (bitIter r).map (fun bit =>
        ({ fromSq := trailingZeros bit - i, toSq := trailingZeros bit
           ty := if bit >>> i &&& queens ≠ 0 then .queen else .rook }, false))
      ++ (bitIter l).map (fun bit =>
        ({ fromSq := trailingZeros bit + i, toSq := trailingZeros bit
           ty := if shl bit i &&& queens ≠ 0 then .queen else .rook }, false))
      ++ (bitIter u).map (fun bit =>
        ({ fromSq := trailingZeros bit - 0o10 * i, toSq := trailingZeros bit
           ty := if bit >>> (0o10 * i) &&& queens ≠ 0 then .queen else .rook }, false))
      ++ (bitIter d).map (fun bit =>
        ({ fromSq := trailingZeros bit + 0o10 * i, toSq := trailingZeros bit
           ty := if shl bit (0o10 * i) &&& queens ≠ 0 then .queen else .rook }, false))
      ++ (bitIter ru).map (fun bit =>
        ({ fromSq := trailingZeros bit - 0o11 * i, toSq := trailingZeros bit
           ty := if bit >>> (0o11 * i) &&& queens ≠ 0 then .queen else .bishop }, false))
      ++ (bitIter lu).map (fun bit =>
        ({ fromSq := trailingZeros bit - 7 * i, toSq := trailingZeros bit
           ty := if bit >>> (7 * i) &&& queens ≠ 0 then .queen else .bishop }, false))
      ++ (bitIter rd).map (fun bit =>
        ({ fromSq := trailingZeros bit + 7 * i, toSq := trailingZeros bit
           ty := if shl bit (7 * i) &&& queens ≠ 0 then .queen else .bishop }, false))
      ++ (bitIter ld).map (fun bit =>
        ({ fromSq := trailingZeros bit + 0o11 * i, toSq := trailingZeros bit
           ty := if shl bit (0o11 * i) &&& queens ≠ 0 then .queen else .bishop }, false))
      ++ sliderGo piecesAll otherAll queens fuel (i + 1) r l u d ru lu rd ld
termination_by structural fuel _ _ _ _ _ _ _ _ _ => fuel

/-- Slider candidates of `Board::moves`: orthogonal rays from queens and
rooks, diagonal rays from queens and bishops. -/
def sliderCands (b : Board) (c : Color) : List (Move × Bool) :=
  let pieces := getPieces b c
  let otherAll := (getPieces b c.inv).all
  sliderGo pieces.all otherAll pieces.queens 7 1
    (pieces.queens ||| pieces.rooks) (pieces.queens ||| pieces.rooks)
    (pieces.queens ||| pieces.rooks) (pieces.queens ||| pieces.rooks)
    (pieces.queens ||| pieces.bishops) (pieces.queens ||| pieces.bishops)
    (pieces.queens ||| pieces.bishops) (pieces.queens ||| pieces.bishops)

/-- Knight candidates of `Board::moves`: eight jumps per knight with the
per-direction wrap masks, minus own pieces. -/
def knightCands (b : Board) (c : Color) : List (Move × Bool) :=
  let pieces := getPieces b c
  (bitIter pieces.knights).flatMap (fun knight =>
    let knightMoves :=
      ((shl knight 0o21 ||| knight >>> 0o17) &&& compl64 fileA
        ||| (shl knight 0o17 ||| knight >>> 0o21) &&& compl64 fileH
        ||| (shl knight 0o12 ||| knight >>> 6) &&& compl64 0x0303030303030303
        ||| (shl knight 6 ||| knight >>> 0o12) &&& compl64 0xc0c0c0c0c0c0c0c0)
        &&& compl64 pieces.all
    (bitIter knightMoves).map (fun bit =>
      ({ fromSq := trailingZeros knight, toSq := trailingZeros bit, ty := .knight }, false)))

/-- Copy-apply-and-verify of the `push_move` closures: the move leaves the
mover's king outside the opponent's attack set (`none`, the panicking
castle wildcard, cannot be reached from generated candidates). -/
def kingSafeAfter (b : Board) (c : Color) (mv : Move) : Bool :=
  match performMove? b mv with
  | some b2 => checkAttack b2 c.inv &&& (getPieces b2 c).king == 0
  | none => false

/-- The decision of the `push_move` closure, as a filter predicate: keep
when safety checking is skipped (`dont_check_king_safety`), or when there
is no check and the mover is unpinned, or when the copy-apply check
succeeds. -/
def keepMove (b : Board) (c : Color) (check : Bool) (pins : Nat) (p : Move × Bool) : Bool :=
  p.2 || (!check && shl 1 p.1.fromSq &&& pins == 0) || kingSafeAfter b c p.1

/-- All candidates of `Board::moves` in source order: castles, en passant,
pawn moves, king steps, sliders, knights. -/
def movesCands (b : Board) (c : Color) : List (Move × Bool) :=
  castleCands b c ++ epCands b c ++ pawnCands b c
    ++ kingCands b c ++ sliderCands b c ++ knightCands b c

/-- Legal move list, `Board::moves`: every candidate passes through the
`push_move` king-safety decision. -/
def moves (b : Board) (c : Color) : List Move :=
  let pins := findPins b c
  let check := (getPieces b c).king &&& checkAttack b c.inv != 0
  ((movesCands b c).filter (keepMove b c check pins)).map Prod.fst

/-- Pawn capture candidates of `Board::capture_moves` (the two capture
shifts only; pushes and leaps are omitted). -/
def capPawnCands (b : Board) (c : Color) : List (Move × Bool) :=
  let pieces := getPieces b c
  let otherAll := (getPieces b c.inv).all
  match c with
  | .white =>
    (bitIter (shl pieces.pawns 0o11 &&& compl64 fileA &&& otherAll)).map (fun bit =>
      ({ fromSq := trailingZeros bit - 0o11, toSq := trailingZeros bit
         ty := if bit &&& shl 0xff 0o70 = 0 then .pawn else .pawnQueenPromotion }, false))
    ++ (bitIter (shl pieces.pawns 7 &&& compl64 fileH &&& otherAll)).map (fun bit =>
      ({ fromSq := trailingZeros bit - 7, toSq := trailingZeros bit
         ty := if bit &&& shl 0xff 0o70 = 0 then .pawn else .pawnQueenPromotion }, false))
  | .black =>
    (bitIter (pieces.pawns >>> 0o11 &&& compl64 fileH &&& otherAll)).map (fun bit =>
      ({ fromSq := trailingZeros bit + 0o11, toSq := trailingZeros bit
         ty := if bit &&& 0xff = 0 then .pawn else .pawnQueenPromotion }, false))
    ++ (bitIter (pieces.pawns >>> 7 &&& compl64 fileA &&& otherAll)).map (fun bit =>
      ({ fromSq := trailingZeros bit + 7, toSq := trailingZeros bit
         ty := if bit &&& 0xff = 0 then .pawn else .pawnQueenPromotion }, false))

/-- King capture candidates of `Board::capture_moves`: the 8-neighbourhood
restricted to opponent-occupied, non-attacked squares. -/
def capKingCands (b : Board) (c : Color) : List (Move × Bool) :=
  let pieces := getPieces b c
  let otherAll := (getPieces b c.inv).all
  let otherAttack := checkAttack b c.inv
  let kingMoves :=
    ((shl pieces.king 1 ||| shl pieces.king 0o11 ||| pieces.king >>> 7) &&& compl64 fileA
      ||| (pieces.king >>> 1 ||| pieces.king >>> 0o11 ||| shl pieces.king 7) &&& compl64 fileH
      ||| shl pieces.king 0o10
      ||| pieces.king >>> 0o10)
      &&& otherAll &&& compl64 otherAttack
  (bitIter kingMoves).map (fun bit =>
    ({ fromSq := trailingZeros pieces.king, toSq := trailingZeros bit, ty := .king }, true))

/-- Slider loop of `Board::capture_moves`: same ray stepping as in `moves`,
but only destinations on opponent-occupied squares are emitted. -/
def sliderCapGo (piecesAll otherAll queens : Nat) :
    Nat → Nat → Nat → Nat → Nat → Nat → Nat → Nat → Nat → Nat → List (Move × Bool)
  | 0, _, _, _, _, _, _, _, _, _ => []
  | fuel + 1, i, r, l, u, d, ru, lu, rd, ld =>
    let r := shl (r &&& compl64 otherAll) 1 &&& compl64 fileA &&& compl64 piecesAll
    let l := (l &&& compl64 otherAll) >>> 1 &&& compl64 fileH &&& compl64 piecesAll
    let u := shl (u &&& compl64 otherAll) 0o10 &&& compl64 piecesAll
    let d := (d &&& compl64 otherAll) >>> 0o10 &&& compl64 piecesAll
    let ru := shl (ru &&& compl64 otherAll) 0o11 &&& compl64 fileA &&& compl64 piecesAll
    let lu := shl (lu &&& compl64 otherAll) 7 &&& compl64 fileH &&& compl64 piecesAll
    let rd := (rd &&& compl64 otherAll) >>> 7 &&& compl64 fileA &&& compl64 piecesAll
    let ld := (ld &&& compl64 otherAll) >>> 0o11 &&& compl64 fileH &&& compl64 piecesAll
    if r ||| l ||| u ||| d ||| ru ||| lu ||| rd ||| ld = 0 then []
    else
      (bitIter (r &&& otherAll)).map (fun bit =>
        ({ fromSq := trailingZeros bit - i, toSq := trailingZeros bit
           ty := if bit >>> i &&& queens ≠ 0 then .queen else .rook }, false))
      ++ (bitIter (l &&& otherAll)).map (fun bit =>
        ({ fromSq := trailingZeros bit + i, toSq := trailingZeros bit
           ty := if shl bit i &&& queens ≠ 0 then .queen else .rook }, false))
      ++ (bitIter (u &&& otherAll)).map (fun bit =>
        ({ fromSq := trailingZeros bit - 0o10 * i, toSq := trailingZeros bit
           ty := if bit >>> (0o10 * i) &&& queens ≠ 0 then .queen else .rook }, false))
      ++ (bitIter (d &&& otherAll)).map (fun bit =>
        ({ fromSq := trailingZeros bit + 0o10 * i, toSq := trailingZeros bit
           ty := if shl bit (0o10 * i) &&& queens ≠ 0 then .queen else .rook }, false))
      ++ (bitIter (ru &&& otherAll)).map (fun bit =>
        ({ fromSq := trailingZeros bit - 0o11 * i, toSq := trailingZeros bit
           ty := if bit >>> (0o11 * i) &&& queens ≠ 0 then .queen else .bishop }, false))
      ++ (bitIter (lu &&& otherAll)).map (fun bit =>
        ({ fromSq := trailingZeros bit - 7 * i, toSq := trailingZeros bit
           ty := if bit >>> (7 * i) &&& queens ≠ 0 then .queen else .bishop }, false))
      ++ (bitIter (rd &&& otherAll)).map (fun bit =>
        ({ fromSq := trailingZeros bit + 7 * i, toSq := trailingZeros bit
           ty := if shl bit (7 * i) &&& queens ≠ 0 then .queen else .bishop }, false))
      ++ (bitIter (ld &&& otherAll)).map (fun bit =>
        ({ fromSq := trailingZeros bit + 0o11 * i, toSq := trailingZeros bit
           ty := if shl bit (0o11 * i) &&& queens ≠ 0 then .queen else .bishop }, false))
      ++ sliderCapGo piecesAll otherAll queens fuel (i + 1) r l u d ru lu rd ld
termination_by structural fuel _ _ _ _ _ _ _ _ _ => fuel

/-- Slider capture candidates of `Board::capture_moves`. -/
def sliderCapCands (b : Board) (c : Color) : List (Move × Bool) :=
  let pieces := getPieces b c
  let otherAll := (getPieces b c.inv).all
  sliderCapGo pieces.all otherAll pieces.queens 7 1
    (pieces.queens ||| pieces.rooks) (pieces.queens ||| pieces.rooks)
    (pieces.queens ||| pieces.rooks) (pieces.queens ||| pieces.rooks)
    (pieces.queens ||| pieces.bishops) (pieces.queens ||| pieces.bishops)
    (pieces.queens ||| pieces.bishops) (pieces.queens ||| pieces.bishops)

/-- Knight capture candidates of `Board::capture_moves` (jumps onto
opponent-occupied squares). -/
def capKnightCands (b : Board) (c : Color) : List (Move × Bool) :=
  let pieces := getPieces b c
  let otherAll := (getPieces b c.inv).all
  (bitIter pieces.knights).flatMap (fun knight =>
    let knightMoves :=
      ((shl knight 0o21 ||| knight >>> 0o17) &&& compl64 fileA
        ||| (shl knight 0o17 ||| knight >>> 0o21) &&& compl64 fileH
        ||| (shl knight 0o12 ||| knight >>> 6) &&& compl64 0x0303030303030303
        ||| (shl knight 6 ||| knight >>> 0o12) &&& compl64 0xc0c0c0c0c0c0c0c0)
        &&& otherAll
    (bitIter knightMoves).map (fun bit =>
      ({ fromSq := trailingZeros knight, toSq := trailingZeros bit, ty := .knight }, false)))

/-- All candidates of `Board::capture_moves` in source order. -/
def captureCands (b : Board) (c : Color) : List (Move × Bool) :=
  epCands b c ++ capPawnCands b c ++ capKingCands b c
    ++ sliderCapCands b c ++ capKnightCands b c

/-- Capture move list, `Board::capture_moves`, with the same `push_move`
king-safety decision as `moves`. -/
def captureMoves (b : Board) (c : Color) : List Move :=
  let pins := findPins b c
  let check := (getPieces b c).king &&& checkAttack b c.inv != 0
  ((captureCands b c).filter (keepMove b c check pins)).map Prod.fst

/-- One directional scan of the queen/rook/bishop arms of
`Board::is_legal`: step a single-bit ray; report whether the target square
is reached before the ray dies. -/
def rayReaches (stepF : Nat → Nat) (target : Nat) : Nat → Nat → Bool
  | 0, _ => false
  | fuel + 1, step =>
    let step := stepF step
    if step = 0 then false
    else if step = target then true
    else rayReaches stepF target fuel step
termination_by structural fuel _ => fuel

/-- Legality oracle, `Board::is_legal`: per-kind re-derivation of the
allowed destinations from `mv.from`, membership of `mv.to`, then (except
for castling, which performs its own checks and returns directly) the
copy-apply king-safety check. -/
def isLegal (b : Board) (color : Color) (mv : Move) : Bool :=
  let piecesAll := (getPieces b color).all
  match mv.ty with
  | .king =>
    let king := (getPieces b color).king &&& shl 1 mv.fromSq
    if ((shl king 1 ||| shl king 0o11 ||| king >>> 7) &&& compl64 fileA
        ||| (king >>> 1 ||| king >>> 0o11 ||| shl king 7) &&& compl64 fileH
        ||| shl king 0o10
        ||| king >>> 0o10)
        &&& compl64 piecesAll &&& shl 1 mv.toSq = 0
    then false
    else kingSafeAfter b color mv
  | .queen =>
    let otherAll := (getPieces b color.inv).all
    let toSquare := shl 1 mv.toSq
    let queen := (getPieces b color).queens &&& shl 1 mv.fromSq
    if queen = 0 then false
    else if rayReaches
        (fun s => shl (s &&& compl64 otherAll) 1 &&& compl64 fileA &&& compl64 piecesAll)
        toSquare 64 queen
      || rayReaches
        (fun s => (s &&& compl64 otherAll) >>> 1 &&& compl64 fileH &&& compl64 piecesAll)
        toSquare 64 queen
      || rayReaches
        (fun s => shl (s &&& compl64 otherAll) 0o10 &&& compl64 piecesAll)
        toSquare 64 queen
      || rayReaches
        (fun s => (s &&& compl64 otherAll) >>> 0o10 &&& compl64 piecesAll)
        toSquare 64 queen
      || rayReaches
        (fun s => shl (s &&& compl64 otherAll) 0o11 &&& compl64 fileA &&& compl64 piecesAll)
        toSquare 64 queen
      || rayReaches
        (fun s => shl (s &&& compl64 otherAll) 7 &&& compl64 fileH &&& compl64 piecesAll)
        toSquare 64 queen
      || rayReaches
        (fun s => (s &&& compl64 otherAll) >>> 7 &&& compl64 fileA &&& compl64 piecesAll)
        toSquare 64 queen
      || rayReaches
        (fun s => (s &&& compl64 otherAll) >>> 0o11 &&& compl64 fileH &&& compl64 piecesAll)
        toSquare 64 queen
    then kingSafeAfter b color mv
    else false
  | .rook =>
    let otherAll := (getPieces b color.inv).all
    let toSquare := shl 1 mv.toSq
    let rook := (getPieces b color).rooks &&& shl 1 mv.fromSq
    if rook = 0 then false
    else if rayReaches
        (fun s => shl (s &&& compl64 otherAll) 1 &&& compl64 fileA &&& compl64 piecesAll)
        toSquare 64 rook
      || rayReaches
        (fun s => (s &&& compl64 otherAll) >>> 1 &&& compl64 fileH &&& compl64 piecesAll)
        toSquare 64 rook
      || rayReaches
        (fun s => shl (s &&& compl64 otherAll) 0o10 &&& compl64 piecesAll)
        toSquare 64 rook
      || rayReaches
        (fun s => (s &&& compl64 otherAll) >>> 0o10 &&& compl64 piecesAll)
        toSquare 64 rook
    then kingSafeAfter b color mv
    else false
  | .bishop =>
    let otherAll := (getPieces b color.inv).all
    let toSquare := shl 1 mv.toSq
    let bishop := (getPieces b color).bishops &&& shl 1 mv.fromSq
    if bishop = 0 then false
    else if rayReaches
        (fun s => shl (s &&& compl64 otherAll) 0o11 &&& compl64 fileA &&& compl64 piecesAll)
        toSquare 64 bishop
      || rayReaches
        (fun s => shl (s &&& compl64 otherAll) 7 &&& compl64 fileH &&& compl64 piecesAll)
        toSquare 64 bishop
      || rayReaches
        (fun s => (s &&& compl64 otherAll) >>> 7 &&& compl64 fileA &&& compl64 piecesAll)
        toSquare 64 bishop
      || rayReaches
        (fun s => (s &&& compl64 otherAll) >>> 0o11 &&& compl64 fileH &&& compl64 piecesAll)
        toSquare 64 bishop
    then kingSafeAfter b color mv
    else false
  | .knight =>
    let knight := (getPieces b color).knights &&& shl 1 mv.fromSq
    if ((shl knight 0o21 ||| knight >>> 0o17) &&& compl64 fileA
        ||| (shl knight 0o17 ||| knight >>> 0o21) &&& compl64 fileH
        ||| (shl knight 0o12 ||| knight >>> 6) &&& compl64 0x0303030303030303
        ||| (shl knight 6 ||| knight >>> 0o12) &&& compl64 0xc0c0c0c0c0c0c0c0)
        &&& compl64 piecesAll &&& shl 1 mv.toSq = 0
    then false
    else kingSafeAfter b color mv
  | .pawn | .pawnQueenPromotion | .pawnRookPromotion
  | .pawnBishopPromotion | .pawnKnightPromotion =>
    let all := b.white_pieces.all ||| b.black_pieces.all
    match color with
    | .white =>
      let pawn := b.white_pieces.pawns &&& shl 1 mv.fromSq
      let otherAll := b.black_pieces.all
      if (shl pawn 0o10 &&& compl64 all
          ||| (shl pawn 7 &&& compl64 fileH ||| shl pawn 0o11 &&& compl64 fileA) &&& otherAll)
          &&& shl 1 mv.toSq = 0
      then false
      else if mv.ty ≠ MoveType.pawn ∧ shl 1 mv.toSq &&& shl 0xff 0o70 = 0 then false
      else kingSafeAfter b color mv
    | .black =>
      let pawn := b.black_pieces.pawns &&& shl 1 mv.fromSq
      let otherAll := b.white_pieces.all
      if (pawn >>> 0o10 &&& compl64 all
          ||| (pawn >>> 0o11 &&& compl64 fileH ||| pawn >>> 7 &&& compl64 fileA) &&& otherAll)
          &&& shl 1 mv.toSq = 0
      then false
      else if mv.ty ≠ MoveType.pawn ∧ shl 1 mv.toSq &&& 0xff = 0 then false
      else kingSafeAfter b color mv
  | .pawnLeap =>
    let all := b.white_pieces.all ||| b.black_pieces.all
    match color with
    | .white =>
      let pawn := b.white_pieces.pawns &&& shl 1 mv.fromSq
      if shl pawn 0o20 &&& shl 1 mv.toSq &&& compl64 all &&& 0xff000000 = 0 then false
      else kingSafeAfter b color mv
    | .black =>
      let pawn := b.black_pieces.pawns &&& shl 1 mv.fromSq
      if pawn >>> 0o20 &&& shl 1 mv.toSq &&& compl64 all &&& 0xff00000000 = 0 then false
      else kingSafeAfter b color mv
  | .pawnEnPassant =>
    if b.prev_move.ty ≠ MoveType.pawnLeap then false
    else
      match color with
      | .white =>
        let pawn := b.white_pieces.pawns &&& shl 1 mv.fromSq
        if mv.toSq ≠ b.prev_move.toSq + 0o10 then false
        else if (shl pawn 7 &&& compl64 fileH ||| shl pawn 0o11 &&& compl64 fileA)
            &&& shl 1 mv.toSq = 0 then false
        else kingSafeAfter b color mv
      | .black =>
        let pawn := b.black_pieces.pawns &&& shl 1 mv.fromSq
        if mv.toSq ≠ b.prev_move.toSq - 0o10 then false
        else if (pawn >>> 0o11 &&& compl64 fileH ||| pawn >>> 7 &&& compl64 fileA)
            &&& shl 1 mv.toSq = 0 then false
        else kingSafeAfter b color mv
  | .castle =>
    let all := b.white_pieces.all ||| b.black_pieces.all
    match mv.toSq with
    | 2 =>
      if color = Color.black then false
      else if all &&& 0xe ≠ 0 then false
      else if ¬ flagsContains b.flags WHITE_QUEENS_CASTLE then false
      else if checkAttack b .black &&& 0x1c ≠ 0 then false
      else true
    | 6 =>
      if color = Color.black then false
      else if all &&& 0x60 ≠ 0 then false
      else if ¬ flagsContains b.flags WHITE_KINGS_CASTLE then false
      else if checkAttack b .black &&& 0x70 ≠ 0 then false
      else true
    | 0o72 =>
      if color = Color.white then false
      else if all &&& shl 0xe 0o70 ≠ 0 then false
      else if ¬ flagsContains b.flags BLACK_QUEENS_CASTLE then false
      else if checkAttack b .white &&& shl 0x1c 0o70 ≠ 0 then false
      else true
    | 0o76 =>
      if color = Color.white then false
      else if all &&& shl 0x60 0o70 ≠ 0 then false
      else if ¬ flagsContains b.flags BLACK_KINGS_CASTLE then false
      else if checkAttack b .black &&& shl 0x70 0o70 ≠ 0 then false
      else true
    | _ => false

/-- The constant `i32::MAX`. -/
def i32Max : Int := 2147483647

/-- Material value of one piece set, `pieces_value` in `bot.rs`: pawns 1,
knights and bishops 3, rooks 5, queens 9; the king is not counted. -/
def piecesValue (p : Pieces) : Nat :=
  countOnes p.pawns
    + 3 * (countOnes p.knights + countOnes p.bishops)
    + 5 * countOnes p.rooks
    + 9 * countOnes p.queens

/-- Static evaluation from White's perspective, `Bot::guess_white_win`:
`100 * (value(white) - value(black))`. -/
def guessWhiteWin (b : Board) : Int :=
  100 * ((piecesValue b.white_pieces : Int) - (piecesValue b.black_pieces : Int))

/-- Move-ordering score, `Bot::eval_move`: victim value minus a penalty of
`9 * attacker value / 8` when the destination is attacked.  `none` models
the two `unreachable!()` arms (destination holds a king; a king or castle
move onto an attacked square). -/
def evalMove? (mv : Move) (b : Board) (attack : Nat) : Option Int :=
  let victim : Option Int :=
    match b.getAt? (shl 1 mv.toSq) with
    | some piece =>
      match piece.ty with
      | .king => none
      | .queen => some 9
      | .rook => some 5
      | .bishop => some 3
      | .knight => some 3
      | .pawn => some 1
    | none => some 0
  match victim with
  | none => none
  | some score =>
    if shl 1 mv.toSq &&& attack ≠ 0 then
      match mv.ty with
      | .king | .castle => none
      | .queen | .pawnQueenPromotion | .pawnRookPromotion
      | .pawnBishopPromotion | .pawnKnightPromotion => some (score - 9 * 9 / 8)
      | .rook => some (score - 9 * 5 / 8)
      | .bishop => some (score - 9 * 3 / 8)
      | .knight => some (score - 9 * 3 / 8)
      | .pawn | .pawnLeap | .pawnEnPassant => some (score - 9 * 1 / 8)
    else some score

/-- Insert into a key-sorted list (ascending first component). -/
def insertByKey (x : Int × Move) : List (Int × Move) → List (Int × Move)
  | [] => [x]
  | y :: ys => if x.1 ≤ y.1 then x :: y :: ys else y :: insertByKey x ys
termination_by structural l => l

/-- Insertion sort on the first component. -/
def sortPairs : List (Int × Move) → List (Int × Move)
  | [] => []
  | x :: xs => insertByKey x (sortPairs xs)
termination_by structural l => l

/-- The `sort_unstable_by_key(|mv| -eval_move(..))` step of the search:
keys are negated scores, so the result is descending by score.  `none`
when computing a key hits an `unreachable!()` arm of `eval_move` (the
source panics while sorting). -/
def sortByScore? (b : Board) (attack : Nat) (ms : List Move) : Option (List Move) :=
  match ms.mapM (fun mv => (evalMove? mv b attack).map (fun s => (-s, mv))) with
  | none => none
  | some keyed => some ((sortPairs keyed).map Prod.snd)

mutual

/-- Quiescence search, `Bot::eval_captures_board_rec`, with an explicit
recursion fuel as the termination measure (the source recursion terminates
because every recursive step captures a piece on `pos`; the fuel only
bounds the depth of the call tree and plays no role in the non-recursive
branches).  Restricted to captures onto `pos`; with none, returns the
static evaluation for the side to move, or `-i32::MAX` when that side is
also in check. -/
def evalCapturesRec : Nat → Board → Nat → Color → Int → Int → Option Int
  | 0, _, _, _, _, _ => none
  | fuel + 1, b, pos, color, alpha, beta =>
    let ms := (captureMoves b color).filter (fun mv => mv.toSq == pos)
    if ms.isEmpty then
      some (if checkAttack b color.inv &&& (getPieces b color).king = 0 then
              match color with
              | .white => guessWhiteWin b
              | .black => -(guessWhiteWin b)
            else -i32Max)
    else
      match sortByScore? b (checkAttack b color.inv) ms with
      | none => none
      | some sorted => capLoop fuel b pos color sorted alpha beta (-i32Max)
termination_by structural fuel _ _ _ _ _ => fuel

/-- The alpha-beta fold over the sorted capture list in
`Bot::eval_captures_board_rec`: copy, apply, recurse negated, fail high on
`beta <= value`, widen alpha. -/
def capLoop : Nat → Board → Nat → Color → List Move → Int → Int → Int → Option Int
  | _, _, _, _, [], _, _, value => some value
  | 0, _, _, _, _ :: _, _, _, _ => none
  | fuel + 1, b, pos, color, mv :: rest, alpha, beta, value =>
    match performMove? b mv with
    | none => none
    | some b2 =>
      match evalCapturesRec fuel b2 pos color.inv (-beta) (-alpha) with
      | none => none
      | some r =>
        let value := max value (-r)
        if beta ≤ value then some beta
        else capLoop fuel b pos color rest (max alpha value) beta value
termination_by structural fuel _ _ _ _ _ _ _ => fuel

end

mutual

/-- Negamax search, `Bot::eval_board_rec`, again with a fuel bounding the
call tree (the source recursion is driven by `depth`, which the fuel
dominates; the branches settled below do not recurse).  At depth zero it
enters the quiescence on `prev_move.to`; with no legal move it scores the
position as stalemate (0) or checkmate (`-i32::MAX`); otherwise the
alpha-beta fold over the sorted move list. -/
def evalBoardRec : Nat → Board → Color → Nat → Int → Int → Option Int
  | 0, _, _, _, _, _ => none
  | fuel + 1, b, color, 0, alpha, beta =>
    evalCapturesRec (fuel + 1) b b.prev_move.toSq color alpha beta
  | fuel + 1, b, color, depth + 1, alpha, beta =>
    let ms := moves b color
    if ms.isEmpty then
      some (if checkAttack b color.inv &&& (getPieces b color).king = 0 then 0 else -i32Max)
    else
      match sortByScore? b (checkAttack b color.inv) ms with
      | none => none
      | some sorted => boardLoop fuel b color depth sorted alpha beta (-i32Max)
termination_by structural fuel _ _ _ _ _ => fuel

/-- The alpha-beta fold over the sorted move list in `Bot::eval_board_rec`
(the recursion is on the remaining depth, already decremented here). -/
def boardLoop : Nat → Board → Color → Nat → List Move → Int → Int → Int → Option Int
  | _, _, _, _, [], _, _, value => some value
  | 0, _, _, _, _ :: _, _, _, _ => none
  | fuel + 1, b, color, depth, mv :: rest, alpha, beta, value =>
    match performMove? b mv with
    | none => none
    | some b2 =>
      match evalBoardRec fuel b2 color.inv depth (-beta) (-alpha) with
      | none => none
      | some r =>
        let value := max value (-r)
        if beta ≤ value then some beta
        else boardLoop fuel b color depth rest (max alpha value) beta value
termination_by structural fuel _ _ _ _ _ _ _ => fuel

end

/-- Value seen from the side to move: as is for White, negated for Black
(the sign convention of the quiescence leaf). -/
def sideSign (c : Color) (v : Int) : Int :=
  match c with
  | .white => v
  | .black => -v

/-- Positions reachable through the engine itself, alternating colours from
the initial position: every played move comes from `moves` and is applied
with `perform_move`. -/
inductive Reachable : Board → Color → Prop where
  | init : Reachable initialBoard .white
  | step {b : Board} {c : Color} {mv : Move} {b2 : Board} :
      Reachable b c → mv ∈ moves b c → performMove? b mv = some b2 →
      Reachable b2 c.inv

/-- Modelled from the spec wording of the attack computation, for
comparison with `checkAttack`: the identical routine, but the slider
blocker set is an explicit parameter instead of being derived inside. -/
def attackWithBlockers (b : Board) (color : Color) (blockers : Nat) : Nat :=
  let pieces := getPieces b color
  let pawnAttack : Nat :=
    match color with
    | .white => shl pieces.pawns 0o11 &&& compl64 fileA ||| shl pieces.pawns 7 &&& compl64 fileH
    | .black => pieces.pawns >>> 0o11 &&& compl64 fileH ||| pieces.pawns >>> 7 &&& compl64 fileA
  let kingAttack : Nat :=
    (shl pieces.king 1 ||| shl pieces.king 0o11 ||| pieces.king >>> 7) &&& compl64 fileA
      ||| (pieces.king >>> 1 ||| pieces.king >>> 0o11 ||| shl pieces.king 7) &&& compl64 fileH
      ||| shl pieces.king 0o10
      ||| pieces.king >>> 0o10
  let slideAttack :=
    floodGo 64 blockers
      (shl (pieces.queens ||| pieces.rooks) 1 &&& compl64 fileA)
      ((pieces.queens ||| pieces.rooks) >>> 1 &&& compl64 fileH)
      (shl (pieces.queens ||| pieces.rooks) 0o10)
      ((pieces.queens ||| pieces.rooks) >>> 0o10)
      (shl (pieces.queens ||| pieces.bishops) 0o11 &&& compl64 fileA)
      (shl (pieces.queens ||| pieces.bishops) 7 &&& compl64 fileH)
      ((pieces.queens ||| pieces.bishops) >>> 7 &&& compl64 fileA)
      ((pieces.queens ||| pieces.bishops) >>> 0o11 &&& compl64 fileH)
      0
  let knightAttack : Nat :=
    (shl pieces.knights 0o21 ||| pieces.knights >>> 0o17) &&& compl64 fileA
      ||| (shl pieces.knights 0o17 ||| pieces.knights >>> 0o21) &&& compl64 fileH
      ||| (shl pieces.knights 0o12 ||| pieces.knights >>> 6) &&& compl64 0x0303030303030303
      ||| (shl pieces.knights 6 ||| pieces.knights >>> 0o12) &&& compl64 0xc0c0c0c0c0c0c0c0
  pawnAttack ||| kingAttack ||| slideAttack ||| knightAttack

/-- Destination of an en-passant capture as the spec words it: one rank
behind the leaped pawn from the mover's point of view. -/
def epDest (c : Color) (t : Nat) : Nat :=
  match c with
  | .white => t + 0o10
  | .black => t - 0o10

/-- Apply a move that is known to succeed, for building concrete test
positions (`performMove?` is `some` on every move used below). -/
def afterMove (b : Board) (mv : Move) : Board := (performMove? b mv).getD b

/-- Position after 1. e2-e4 from the initial position. -/
def c5AfterE4 : Board := afterMove initialBoard { fromSq := 12, toSq := 28, ty := .pawnLeap }

/-- Position after 1. e4 a5 (black pawn leap a7-a5). -/
def epB2 : Board := afterMove c5AfterE4 { fromSq := 48, toSq := 32, ty := .pawnLeap }

/-- Position after 2. e5 (pawn push e4-e5). -/
def epB3 : Board := afterMove epB2 { fromSq := 28, toSq := 36, ty := .pawn }

/-- Position after 2... a4 (pawn push a5-a4). -/
def epB4 : Board := afterMove epB3 { fromSq := 32, toSq := 24, ty := .pawn }

/-- Position after 3. Ke2. -/
def epB5 : Board := afterMove epB4 { fromSq := 4, toSq := 12, ty := .king }

/-- Position after 3... Ra5 (rook a8-a5). -/
def epB6 : Board := afterMove epB5 { fromSq := 56, toSq := 32, ty := .rook }

/-- Position after 4. Ke3. -/
def epB7 : Board := afterMove epB6 { fromSq := 12, toSq := 20, ty := .king }

/-- Position after 4... Nc6 (knight b8-c6). -/
def epB8 : Board := afterMove epB7 { fromSq := 57, toSq := 42, ty := .knight }

/-- Position after 5. Kf4. -/
def epB9 : Board := afterMove epB8 { fromSq := 20, toSq := 29, ty := .king }

/-- Position after 5... Nb8 (knight back c6-b8). -/
def epB10 : Board := afterMove epB9 { fromSq := 42, toSq := 57, ty := .knight }

/-- Position after 6. Kg5. -/
def epB11 : Board := afterMove epB10 { fromSq := 29, toSq := 38, ty := .king }

/-- Position after 6... d5 (pawn leap d7-d5): White to move, white king
g5, white pawn e5, black rook a5, black pawn freshly leaped to d5. -/
def epB12 : Board := afterMove epB11 { fromSq := 51, toSq := 35, ty := .pawnLeap }

/-- The en-passant capture e5xd6 in that position: it removes both fifth
rank pawns, opening the rook line a5-g5 onto White's own king. -/
def epBlunder : Move := { fromSq := 36, toSq := 43, ty := .pawnEnPassant }

/-- Position after 7. exd6 e.p., with White's king in check from a5. -/
def epB13 : Board := afterMove epB12 epBlunder

/-- Black's reply capturing the white king, generated by `moves`. -/
def kingCapture : Move := { fromSq := 32, toSq := 38, ty := .rook }

/-- A checkmate position: white king a6 and queen b7 against the bare
black king a8, Black to move with no legal move and king attacked. -/
def cmBoard : Board where
  white_pieces := { all := 2 ^ 40 ||| 2 ^ 49, king := 2 ^ 40, queens := 2 ^ 49,
                    rooks := 0, bishops := 0, knights := 0, pawns := 0 }
  black_pieces := { all := 2 ^ 56, king := 2 ^ 56, queens := 0,
                    rooks := 0, bishops := 0, knights := 0, pawns := 0 }
  prev_move := { fromSq := 0, toSq := 0, ty := .king }
  flags := 0

/-- A position where the previous move is a pawn leap (d7-d5) with a white
pawn adjacent on e5, but the white king on a1 is in check from the rook on
a5, so the en-passant capture (which does not resolve the check) is
rejected by the king-safety filter. -/
def c6Board : Board where
  white_pieces := { all := 2 ^ 0 ||| 2 ^ 36, king := 2 ^ 0, queens := 0,
                    rooks := 0, bishops := 0, knights := 0, pawns := 2 ^ 36 }
  black_pieces := { all := 2 ^ 63 ||| 2 ^ 32 ||| 2 ^ 35, king := 2 ^ 63, queens := 0,
                    rooks := 2 ^ 32, bishops := 0, knights := 0, pawns := 2 ^ 35 }
  prev_move := { fromSq := 51, toSq := 35, ty := .pawnLeap }
  flags := 0

/-- Spec scenario for en passant: 1. e4 d5 2. e5 f5, after which White has
the capture e5xf6 e.p. available. -/
def c6WitnessBoard : Board :=
  afterMove (afterMove (afterMove (afterMove initialBoard
    { fromSq := 12, toSq := 28, ty := .pawnLeap })
    { fromSq := 51, toSq := 35, ty := .pawnLeap })
    { fromSq := 28, toSq := 36, ty := .pawn })
    { fromSq := 53, toSq := 37, ty := .pawnLeap }

/-- A position with a black rook on a5 and the lone white king on f5 on the
same rank (black king h1): the squares g5 and h5 lie behind the white king
on the rook's ray. -/
def c7Board : Board where
  white_pieces := { all := 2 ^ 37, king := 2 ^ 37, queens := 0,
                    rooks := 0, bishops := 0, knights := 0, pawns := 0 }
  black_pieces := { all := 2 ^ 32 ||| 2 ^ 7, king := 2 ^ 7, queens := 0,
                    rooks := 2 ^ 32, bishops := 0, knights := 0, pawns := 0 }
  prev_move := { fromSq := 0, toSq := 0, ty := .king }
  flags := 0

set_option maxRecDepth 100000

/-- Membership in a conditional singleton list yields the condition and the
element. -/
theorem memIteSingle {α : Type} {c : Prop} [Decidable c] {x p : α}
    (h : p ∈ if c then [x] else []) : c ∧ p = x := by
  split at h
  · exact ⟨by assumption, by simpa using h⟩
  · simp at h

/-- Elements of a candidate map segment whose tag is a two-way conditional
have one of the two tags. -/
theorem mapSegTy {l : List Nat} {f g : Nat → Nat} {cnd : Nat → Prop}
    [inst : ∀ n, Decidable (cnd n)] {t e : MoveType} {dc : Bool} {p : Move × Bool}
    (h : p ∈ l.map (fun bit =>
      ({ fromSq := f bit, toSq := g bit, ty := if cnd bit then t else e }, dc))) :
    p.1.ty = t ∨ p.1.ty = e := by
  obtain ⟨bit, -, heq⟩ := List.mem_map.mp h
  subst heq
  by_cases hc : cnd bit
  · simp [hc]
  · simp [hc]

/-- Elements of a candidate map segment with a fixed tag have that tag. -/
theorem mapSegTyConst {l : List Nat} {f g : Nat → Nat} {t : MoveType} {dc : Bool}
    {p : Move × Bool}
    (h : p ∈ l.map (fun bit => ({ fromSq := f bit, toSq := g bit, ty := t }, dc))) :
    p.1.ty = t := by
  obtain ⟨bit, -, heq⟩ := List.mem_map.mp h
  subst heq
  rfl

/-- Every castle candidate carries the castle tag. -/
theorem castleCands_ty {b : Board} {c : Color} {p : Move × Bool}
    (h : p ∈ castleCands b c) : p.1.ty = .castle := by
  cases c <;> simp only [castleCands, List.mem_append] at h <;>
    rcases h with h | h <;> obtain ⟨-, rfl⟩ := memIteSingle h <;> rfl

/-- Every pawn candidate is a push, a leap or a queen promotion. -/
theorem pawnCands_ty {b : Board} {c : Color} {p : Move × Bool}
    (h : p ∈ pawnCands b c) :
    p.1.ty = .pawn ∨ p.1.ty = .pawnLeap ∨ p.1.ty = .pawnQueenPromotion := by
  cases c
  case white =>
    simp only [pawnCands] at h
    simp only [List.append_assoc] at h
    rcases List.mem_append.mp h with h | h
    · rcases mapSegTy h with h' | h' <;> simp [h']
    rcases List.mem_append.mp h with h | h
    · exact Or.inr (Or.inl (mapSegTyConst h))
    rcases List.mem_append.mp h with h | h
    · rcases mapSegTy h with h' | h' <;> simp [h']
    · rcases mapSegTy h with h' | h' <;> simp [h']
  case black =>
    simp only [pawnCands] at h
    simp only [List.append_assoc] at h
    rcases List.mem_append.mp h with h | h
    · rcases mapSegTy h with h' | h' <;> simp [h']
    rcases List.mem_append.mp h with h | h
    · exact Or.inr (Or.inl (mapSegTyConst h))
    rcases List.mem_append.mp h with h | h
    · rcases mapSegTy h with h' | h' <;> simp [h']
    · rcases mapSegTy h with h' | h' <;> simp [h']

/-- Every king-step candidate carries the king tag. -/
theorem kingCands_ty {b : Board} {c : Color} {p : Move × Bool}
    (h : p ∈ kingCands b c) : p.1.ty = .king := by
  simp only [kingCands] at h
  exact mapSegTyConst h

/-- Every slider candidate is a queen, rook or bishop move. -/
theorem sliderGo_ty {piecesAll otherAll queens : Nat} :
    ∀ {fuel i r l u d ru lu rd ld : Nat} {p : Move × Bool},
      p ∈ sliderGo piecesAll otherAll queens fuel i r l u d ru lu rd ld →
      p.1.ty = .queen ∨ p.1.ty = .rook ∨ p.1.ty = .bishop := by
  intro fuel
  induction fuel with
  | zero =>
    intro i r l u d ru lu rd ld p h
    simp [sliderGo] at h
  | succ n ih =>
    intro i r l u d ru lu rd ld p h
    simp only [sliderGo] at h
    split at h
    · simp at h
    simp only [List.append_assoc] at h
    rcases List.mem_append.mp h with h | h
    · rcases mapSegTy h with h' | h' <;> simp [h']
    rcases List.mem_append.mp h with h | h
    · rcases mapSegTy h with h' | h' <;> simp [h']
    rcases List.mem_append.mp h with h | h
    · rcases mapSegTy h with h' | h' <;> simp [h']
    rcases List.mem_append.mp h with h | h
    · rcases mapSegTy h with h' | h' <;> simp [h']
    rcases List.mem_append.mp h with h | h
    · rcases mapSegTy h with h' | h' <;> simp [h']
    rcases List.mem_append.mp h with h | h
    · rcases mapSegTy h with h' | h' <;> simp [h']
    rcases List.mem_append.mp h with h | h
    · rcases mapSegTy h with h' | h' <;> simp [h']
    rcases List.mem_append.mp h with h | h
    · rcases mapSegTy h with h' | h' <;> simp [h']
    · exact ih h

/-- Every knight candidate carries the knight tag. -/
theorem knightCands_ty {b : Board} {c : Color} {p : Move × Bool}
    (h : p ∈ knightCands b c) : p.1.ty = .knight := by
  simp only [knightCands] at h
  obtain ⟨kn, -, h⟩ := List.mem_flatMap.mp h
  exact mapSegTyConst h

/-- Characterisation of the en-passant candidate list: exactly the moves
built from a leap destination with an adjacent own pawn (wrap-masked), with
the destination one rank behind the leaped pawn. -/
theorem epCands_mem {b : Board} {c : Color} {p : Move × Bool} :
    p ∈ epCands b c ↔
      b.prev_move.ty = .pawnLeap ∧
      ((shl 1 (b.prev_move.toSq + 1) &&& (getPieces b c).pawns &&& compl64 fileA ≠ 0
          ∧ p = ({ fromSq := b.prev_move.toSq + 1, toSq := epDest c b.prev_move.toSq,
                   ty := .pawnEnPassant }, false))
        ∨ (shl 1 (b.prev_move.toSq - 1) &&& (getPieces b c).pawns &&& compl64 fileH ≠ 0
          ∧ p = ({ fromSq := b.prev_move.toSq - 1, toSq := epDest c b.prev_move.toSq,
                   ty := .pawnEnPassant }, false))) := by
  simp only [epCands]
  by_cases hprev : b.prev_move.ty = MoveType.pawnLeap
  · rw [if_pos (by simp [hprev])]
    cases c
    · simp only [epDest]
      constructor
      · intro h
        refine ⟨hprev, ?_⟩
        rcases List.mem_append.mp h with h | h
        · obtain ⟨hc, rfl⟩ := memIteSingle h
          exact Or.inl ⟨hc, rfl⟩
        · obtain ⟨hc, rfl⟩ := memIteSingle h
          exact Or.inr ⟨hc, rfl⟩
      · rintro ⟨-, ⟨hc, rfl⟩ | ⟨hc, rfl⟩⟩
        · exact List.mem_append.mpr
            (Or.inl (by rw [if_pos hc]; exact List.mem_singleton_self _))
        · exact List.mem_append.mpr
            (Or.inr (by rw [if_pos hc]; exact List.mem_singleton_self _))
    · simp only [epDest]
      constructor
      · intro h
        refine ⟨hprev, ?_⟩
        rcases List.mem_append.mp h with h | h
        · obtain ⟨hc, rfl⟩ := memIteSingle h
          exact Or.inl ⟨hc, rfl⟩
        · obtain ⟨hc, rfl⟩ := memIteSingle h
          exact Or.inr ⟨hc, rfl⟩
      · rintro ⟨-, ⟨hc, rfl⟩ | ⟨hc, rfl⟩⟩
        · exact List.mem_append.mpr
            (Or.inl (by rw [if_pos hc]; exact List.mem_singleton_self _))
        · exact List.mem_append.mpr
            (Or.inr (by rw [if_pos hc]; exact List.mem_singleton_self _))
  · rw [if_neg (by simp [hprev])]
    simp [hprev]

/-- C6 (amended): for a position whose recorded leap destination is a real
square off the first and last ranks, a `PawnEnPassant` move appears in
`moves(c)` if and only if the previous move is a `PawnLeap`, a pawn of
colour `c` stands horizontally adjacent (wrap-masked) to the leap
destination, the move's destination is one rank behind the leaped pawn
from the mover's view, and the move passes the generator's king-safety
filter (mover not in check and unpinned, or the applied move leaves the
king unattacked). -/
theorem c6_en_passant_characterisation (b : Board) (c : Color) (mv : Move)
    (hlo : 8 ≤ b.prev_move.toSq) (hhi : b.prev_move.toSq < 48) :
    (mv ∈ moves b c ∧ mv.ty = .pawnEnPassant) ↔
      (b.prev_move.ty = .pawnLeap
        ∧ mv.ty = .pawnEnPassant
        ∧ mv.toSq = epDest c b.prev_move.toSq
        ∧ ((mv.fromSq = b.prev_move.toSq + 1
              ∧ shl 1 (b.prev_move.toSq + 1) &&& (getPieces b c).pawns &&& compl64 fileA ≠ 0)
            ∨ (mv.fromSq = b.prev_move.toSq - 1
              ∧ shl 1 (b.prev_move.toSq - 1) &&& (getPieces b c).pawns &&& compl64 fileH ≠ 0))
        ∧ keepMove b c ((getPieces b c).king &&& checkAttack b c.inv != 0)
            (findPins b c) (mv, false) = true) := by
  constructor
  · rintro ⟨hm, hty⟩
    simp only [moves] at hm
    obtain ⟨q, hq, rfl⟩ := List.mem_map.mp hm
    obtain ⟨hqc, hqk⟩ := List.mem_filter.mp hq
    simp only [movesCands, List.append_assoc] at hqc
    rcases List.mem_append.mp hqc with h | hqc
    · exact absurd (castleCands_ty h) (by simp [hty])
    rcases List.mem_append.mp hqc with h | hqc
    · obtain ⟨hprev, hcase⟩ := epCands_mem.mp h
      rcases hcase with ⟨hc, heq⟩ | ⟨hc, heq⟩
      · subst heq
        exact ⟨hprev, rfl, rfl, Or.inl ⟨rfl, hc⟩, hqk⟩
      · subst heq
        exact ⟨hprev, rfl, rfl, Or.inr ⟨rfl, hc⟩, hqk⟩
    rcases List.mem_append.mp hqc with h | hqc
    · rcases pawnCands_ty h with h' | h' | h' <;> rw [hty] at h' <;> simp at h'
    rcases List.mem_append.mp hqc with h | hqc
    · have h' := kingCands_ty h
      rw [hty] at h'
      simp at h'
    rcases List.mem_append.mp hqc with h | hqc
    · have h' := sliderGo_ty (by simpa only [sliderCands] using h)
      rcases h' with h' | h' | h' <;> rw [hty] at h' <;> simp at h'
    · have h' := knightCands_ty hqc
      rw [hty] at h'
      simp at h'
  · rintro ⟨hprev, hty, hto, hcase, hkeep⟩
    have hqmem : (mv, false) ∈ epCands b c := by
      rw [epCands_mem]
      refine ⟨hprev, ?_⟩
      rcases hcase with ⟨hf, hc⟩ | ⟨hf, hc⟩
      · refine Or.inl ⟨hc, ?_⟩
        have hmv : mv = Move.mk (b.prev_move.toSq + 1)
            (epDest c b.prev_move.toSq) .pawnEnPassant := by
          obtain ⟨mf, mt, mty⟩ := mv
          simp only [Move.mk.injEq]
          exact ⟨hf, hto, hty⟩
        rw [hmv]
      · refine Or.inr ⟨hc, ?_⟩
        have hmv : mv = Move.mk (b.prev_move.toSq - 1)
            (epDest c b.prev_move.toSq) .pawnEnPassant := by
          obtain ⟨mf, mt, mty⟩ := mv
          simp only [Move.mk.injEq]
          exact ⟨hf, hto, hty⟩
        rw [hmv]
    refine ⟨?_, hty⟩
    simp only [moves]
    refine List.mem_map.mpr ⟨(mv, false), List.mem_filter.mpr ⟨?_, hkeep⟩, rfl⟩
    simp only [movesCands, List.append_assoc]
    exact List.mem_append.mpr (Or.inr (List.mem_append.mpr (Or.inl hqmem)))

/-- C6 (counterexample): in `c6Board` the previous move is a pawn leap with
a white pawn adjacent to the leap destination, yet no `PawnEnPassant` move
appears in `moves(White)` (the capture is discarded because it leaves the
white king in check from the rook on a5), refuting the claimed
"if and only if". -/
theorem c6_counterexample :
    c6Board.prev_move.ty = .pawnLeap
    ∧ shl 1 (c6Board.prev_move.toSq + 1) &&& (getPieces c6Board .white).pawns
        &&& compl64 fileA ≠ 0
    ∧ ∀ mv ∈ moves c6Board .white, mv.ty ≠ .pawnEnPassant := by
  refine ⟨by decide, by decide, by decide⟩

/-- Witness for C6 (amended) at the spec scenario 1. e4 d5 2. e5 f5: the
hypotheses hold (the leap destination f5 is square 37) and the amended
characterisation yields the en-passant capture e5xf6 in `moves(White)`. -/
theorem c6_en_passant_characterisation_witness :
    8 ≤ c6WitnessBoard.prev_move.toSq ∧ c6WitnessBoard.prev_move.toSq < 48
    ∧ ({ fromSq := 36, toSq := 45, ty := .pawnEnPassant } : Move) ∈ moves c6WitnessBoard .white := by
  refine ⟨by decide, by decide, ?_⟩
  exact ((c6_en_passant_characterisation c6WitnessBoard .white
    { fromSq := 36, toSq := 45, ty := .pawnEnPassant } (by decide) (by decide)).mpr
    (by decide)).1

/-- C1: at the (reachable) initial position, `moves(Black)` emits the
castle move from 4 to 6 (the white squares e1/g1), but the legality oracle
rejects exactly that move, so the claimed inclusion of `moves` in
`is_legal` fails. -/
theorem c1_generated_black_castle_fails_is_legal :
    Reachable initialBoard .white
    ∧ ({ fromSq := 4, toSq := 6, ty := .castle } : Move) ∈ moves initialBoard .black
    ∧ isLegal initialBoard .black { fromSq := 4, toSq := 6, ty := .castle } = false := by
  refine ⟨Reachable.init, by decide, by decide⟩

/-- C3: at the initial position, `moves(Black)` emits a castle although the
squares f8 and g8 between Black's king and rook are occupied, and every
emitted black castle has its destination on White's home rank (below
square 56) instead of Black's king destination c8 or g8. -/
theorem c3_black_castle_emitted_through_occupied_squares :
    ({ fromSq := 4, toSq := 6, ty := .castle } : Move) ∈ moves initialBoard .black
    ∧ (initialBoard.white_pieces.all ||| initialBoard.black_pieces.all)
        &&& shl 0x60 0o70 ≠ 0
    ∧ ∀ mv ∈ moves initialBoard .black, mv.ty = .castle → mv.toSq < 56 := by
  refine ⟨by decide, by decide, by decide⟩

/-- C4: after 1. e2-e4 from the initial position, Black's king and both
black rooks still stand on their home squares, yet both black castling
rights have been revoked (the update tests the white rook mask at a8/h8),
contradicting the claimed per-side revocation condition. -/
theorem c4_black_castle_rights_revoked_by_white_rooks :
    performMove? initialBoard { fromSq := 12, toSq := 28, ty := .pawnLeap } = some c5AfterE4
    ∧ c5AfterE4.black_pieces.king = shl 0x10 0o70
    ∧ c5AfterE4.black_pieces.rooks &&& shl 1 0o70 ≠ 0
    ∧ c5AfterE4.black_pieces.rooks &&& shl 1 0o77 ≠ 0
    ∧ flagsContains c5AfterE4.flags BLACK_QUEENS_CASTLE = false
    ∧ flagsContains c5AfterE4.flags BLACK_KINGS_CASTLE = false := by
  refine ⟨by decide, by decide, by decide, by decide, by decide, by decide⟩

/-- C5: the initial position has exactly 20 white moves, and after the pawn
leap e2-e4 Black has exactly 20 moves. -/
theorem c5_initial_move_counts :
    (moves initialBoard .white).length = 20
    ∧ performMove? initialBoard { fromSq := 12, toSq := 28, ty := .pawnLeap } = some c5AfterE4
    ∧ (moves c5AfterE4 .black).length = 20 := by
  refine ⟨by decide, by decide, by decide⟩

/-- C7: `check_attack` equals the blocker-parametric attack routine applied
to the union of both occupancies with the opposing king removed; and in
`c7Board` the square g5 (bit 38) directly behind the white king f5 on the
black rook's ray is still reported attacked. -/
theorem c7_attack_ignores_opponent_king_blocker :
    (∀ (b : Board) (c : Color),
      checkAttack b c
        = attackWithBlockers b c
            ((b.white_pieces.all ||| b.black_pieces.all) &&& compl64 (getPieces b c.inv).king))
    ∧ checkAttack c7Board .black &&& shl 1 38 ≠ 0 := by
  refine ⟨fun b c => rfl, by decide⟩

/-- C8: whenever the quiescence routine finds no capture onto `pos`, it
returns the static material evaluation `100 * (value(white) -
value(black))` from the side to move's perspective (negated for Black)
when that side's king is not attacked, and `-i32::MAX` when it is. -/
theorem c8_quiescence_no_capture_returns_static_eval
    (fuel : Nat) (b : Board) (pos : Nat) (c : Color) (alpha beta : Int)
    (h : (captureMoves b c).filter (fun mv => mv.toSq == pos) = []) :
    evalCapturesRec (fuel + 1) b pos c alpha beta
      = some (if checkAttack b c.inv &&& (getPieces b c).king = 0 then
                sideSign c
                  (100 * ((piecesValue b.white_pieces : Int) - (piecesValue b.black_pieces : Int)))
              else -i32Max) := by
  simp only [evalCapturesRec, h, List.isEmpty_nil, if_true, guessWhiteWin]
  cases c <;> rfl

/-- Witness for C8 at the initial position with `pos = 60`: there is no
capture at all, the white king is safe, and the material is balanced, so
the quiescence value is zero. -/
theorem c8_quiescence_witness :
    (captureMoves initialBoard .white).filter (fun mv => mv.toSq == 60) = []
    ∧ evalCapturesRec 1 initialBoard 60 .white (-i32Max) i32Max = some 0 := by
  have h : (captureMoves initialBoard .white).filter (fun mv => mv.toSq == 60) = [] := by decide
  exact ⟨h, (c8_quiescence_no_capture_returns_static_eval 0 initialBoard 60 .white
    (-i32Max) i32Max h).trans (by decide)⟩

/-- C9: at positive depth with no legal move, the negamax value is 0 when
the mover's king is not attacked (stalemate) and `-i32::MAX` when it is
(checkmate). -/
theorem c9_negamax_empty_moves_stalemate_checkmate
    (fuel : Nat) (b : Board) (c : Color) (depth : Nat) (alpha beta : Int)
    (h : moves b c = []) :
    evalBoardRec (fuel + 1) b c (depth + 1) alpha beta
      = some (if checkAttack b c.inv &&& (getPieces b c).king = 0 then 0 else -i32Max) := by
  simp only [evalBoardRec, h, List.isEmpty_nil, if_true]

/-- Witness for C9 at the checkmate position `cmBoard`: Black has no move,
the black king is attacked, and the search value is `-i32::MAX`. -/
theorem c9_negamax_witness :
    moves cmBoard .black = []
    ∧ checkAttack cmBoard .white &&& (getPieces cmBoard .black).king ≠ 0
    ∧ evalBoardRec 1 cmBoard .black 1 (-i32Max) i32Max = some (-i32Max) := by
  have h : moves cmBoard .black = [] := by decide
  exact ⟨h, by decide, (c9_negamax_empty_moves_stalemate_checkmate 0 cmBoard .black 0
    (-i32Max) i32Max h).trans (by decide)⟩

/-- The position `epB12` (after 1. e4 a5 2. e5 a4 3. Ke2 Ra5 4. Ke3 Nc6
5. Kf4 Nb8 6. Kg5 d5) is reached from the initial position through twelve
generated moves. -/
theorem reachable_epB12 : Reachable epB12 .white := by
  have h1 : Reachable c5AfterE4 .black :=
    @Reachable.step initialBoard .white { fromSq := 12, toSq := 28, ty := .pawnLeap }
      c5AfterE4 Reachable.init (by decide) (by decide)
  have h2 : Reachable epB2 .white :=
    @Reachable.step c5AfterE4 .black { fromSq := 48, toSq := 32, ty := .pawnLeap }
      epB2 h1 (by decide) (by decide)
  have h3 : Reachable epB3 .black :=
    @Reachable.step epB2 .white { fromSq := 28, toSq := 36, ty := .pawn }
      epB3 h2 (by decide) (by decide)
  have h4 : Reachable epB4 .white :=
    @Reachable.step epB3 .black { fromSq := 32, toSq := 24, ty := .pawn }
      epB4 h3 (by decide) (by decide)
  have h5 : Reachable epB5 .black :=
    @Reachable.step epB4 .white { fromSq := 4, toSq := 12, ty := .king }
      epB5 h4 (by decide) (by decide)
  have h6 : Reachable epB6 .white :=
    @Reachable.step epB5 .black { fromSq := 56, toSq := 32, ty := .rook }
      epB6 h5 (by decide) (by decide)
  have h7 : Reachable epB7 .black :=
    @Reachable.step epB6 .white { fromSq := 12, toSq := 20, ty := .king }
      epB7 h6 (by decide) (by decide)
  have h8 : Reachable epB8 .white :=
    @Reachable.step epB7 .black { fromSq := 57, toSq := 42, ty := .knight }
      epB8 h7 (by decide) (by decide)
  have h9 : Reachable epB9 .black :=
    @Reachable.step epB8 .white { fromSq := 20, toSq := 29, ty := .king }
      epB9 h8 (by decide) (by decide)
  have h10 : Reachable epB10 .white :=
    @Reachable.step epB9 .black { fromSq := 42, toSq := 57, ty := .knight }
      epB10 h9 (by decide) (by decide)
  have h11 : Reachable epB11 .black :=
    @Reachable.step epB10 .white { fromSq := 29, toSq := 38, ty := .king }
      epB11 h10 (by decide) (by decide)
  exact @Reachable.step epB11 .black { fromSq := 51, toSq := 35, ty := .pawnLeap }
    epB12 h11 (by decide) (by decide)

/-- C2: in the reachable position `epB12`, the generator emits the
en-passant capture e5xd6, and applying it leaves the white king on g5
inside Black's attack set (the rook on a5 sees it along the emptied fifth
rank) - the generator emits a move that leaves the mover's own king in
check. -/
theorem c2_en_passant_leaves_own_king_in_check :
    Reachable epB12 .white
    ∧ epBlunder ∈ moves epB12 .white
    ∧ performMove? epB12 epBlunder = some epB13
    ∧ checkAttack epB13 .black &&& (getPieces epB13 .white).king ≠ 0 :=
  ⟨reachable_epB12, by decide, by decide, by decide⟩

/-- C10: in the reachable position `epB13` (after the en-passant blunder),
`moves(Black)` contains the rook move a5xg5 whose destination holds the
white king, and evaluating the move-ordering score on it reaches the
`unreachable!()` arm of `eval_move` (modelled as `none`). -/
theorem c10_eval_move_unreachable_reached :
    Reachable epB13 .black
    ∧ kingCapture ∈ moves epB13 .black
    ∧ evalMove? kingCapture epB13 (checkAttack epB13 .white) = none :=
  ⟨@Reachable.step epB12 .white epBlunder epB13 reachable_epB12 (by decide) (by decide),
    by decide, by decide⟩
